import Mathlib

/-!
Verification development for the IPSDTA blind source separation engine
(src/bss/ipsdta.py, class GaussIPSDTA and its base class IPSDTAbase).

The Python source is shallowly embedded as follows.

Control flow of one run (the method call chain
GaussIPSDTA.call -> reset_block -> loop of update_once -> separate /
projection back) is embedded as an event-trace semantics over natural
numbers and lists: every loss recording, callback invocation, source-model
update and spatial-model update appends an event, and the two abort points
of the source (the division by n_blocks in reset_block, and the failure of
the VCD spatial update when remainder blocks exist) are explicit errors.

Numeric data flow is embedded over the real and complex numbers of Mathlib.
Tensors become curried functions over Fin types; the batched 1-by-1 matrix
algebra of the configurations with block size one (n_neighbors = 1, which
the source reaches whenever n_blocks = n_bins) becomes scalar complex
arithmetic, so the source-model update rules can be evaluated exactly on
concrete inputs.  The basis normalization is embedded for arbitrary block
size lists, with one square complex matrix per block.

Repository code that the claims need but that is not under src/ is modelled
from the specification and marked as such in its doc comment: the function
to_PSD of utils.utils_linalg (section 4.1 of the spec, PSDProjector) and the
function projection_back of algorithm.projection_back (the excluded
post-hoc scale correction).
-/

namespace Ipsdta

/-- Numerical floor, the module level constant EPS = 1e-12 of the source. -/
noncomputable def EPS : ℝ := 1 / 10 ^ 12

/-! ### Control-flow model of GaussIPSDTA.call (fresh instance) -/

/-- The two demixing-matrix update rules selected by the author preset:
fixed-point iteration for ikeshita, vector-wise coordinate descent for kondo
(reset_block, lines 317-328). -/
inductive SpatialAlg
  | fixedPoint
  | vcd
  deriving DecidableEq

/-- Observable events of one run of GaussIPSDTA.call: a loss value appended
to self.loss, one callback invocation, one source-model update
(update_source_model), one spatial-model update (update_spatial_model). -/
inductive RunEvent
  | recordLoss
  | invokeCallback
  | sourceUpdate
  | spatialUpdate
  deriving DecidableEq

/-- The two abort points reachable from GaussIPSDTA.call: the division
n_bins // n_blocks in reset_block raises ZeroDivisionError when
n_blocks = 0, and update_spatial_model_vcd fails whenever remainder blocks
exist (the tuple-shaped basis has no transpose attribute, and the remainder
branch itself is the raise NotImplementedError at line 921). -/
inductive RunError
  | zeroDivisionInResetBlock
  | spatialVcdRemainder
  deriving DecidableEq

/-- Configuration of one run, as far as the control flow depends on it. -/
structure RunConfig where
  nBins : ℕ
  nBlocks : ℕ
  recordableLoss : Bool
  nCallbacks : ℕ
  alg : SpatialAlg
  spatialIteration : ℕ
  iteration : ℕ
  deriving DecidableEq

/-- Events of the callback sweep (lines 206-208 and 217-219): every
configured callback is invoked once. -/
def callbackEvents (cfg : RunConfig) : List RunEvent :=
  List.replicate cfg.nCallbacks RunEvent.invokeCallback

/-- Events of one call of update_spatial_model (lines 380-388): the
fixed-point rule always completes; the VCD rule (lines 851-923) completes
only on a remainder-free partition and fails otherwise, before updating
anything. -/
def spatialModelStep (cfg : RunConfig) : List RunEvent × Option RunError :=
  match cfg.alg with
  | SpatialAlg.fixedPoint => ([RunEvent.spatialUpdate], none)
  | SpatialAlg.vcd =>
    if cfg.nBins % cfg.nBlocks = 0 then ([RunEvent.spatialUpdate], none)
    else ([], some RunError.spatialVcdRemainder)

/-- Events of the inner loop of update_once (lines 345-346): spatial_iteration
calls of update_spatial_model, stopping at the first failure. -/
def spatialLoop (cfg : RunConfig) : ℕ → List RunEvent × Option RunError
  | 0 => ([], none)
  | n + 1 =>
    match spatialModelStep cfg with
    | (es, some e) => (es, some e)
    | (es, none) =>
      let r := spatialLoop cfg n
      (es ++ r.1, r.2)

/-- Events of update_once (lines 341-346): one source-model update, then the
spatial loop. -/
def updateOnceEvents (cfg : RunConfig) : List RunEvent × Option RunError :=
  let r := spatialLoop cfg cfg.spatialIteration
  (RunEvent.sourceUpdate :: r.1, r.2)

/-- Events of one body of the iteration loop of GaussIPSDTA.call
(lines 210-219): update_once, then a loss recording when recordable_loss is
set, then the callback sweep. -/
def iterationBody (cfg : RunConfig) : List RunEvent × Option RunError :=
  match updateOnceEvents cfg with
  | (es, some e) => (es, some e)
  | (es, none) =>
    (es ++ (if cfg.recordableLoss then [RunEvent.recordLoss] else []) ++
      callbackEvents cfg, none)

/-- Events of the iteration loop run for the given number of iterations,
stopping at the first failure. -/
def iterationLoop (cfg : RunConfig) : ℕ → List RunEvent × Option RunError
  | 0 => ([], none)
  | n + 1 =>
    match iterationBody cfg with
    | (es, some e) => (es, some e)
    | (es, none) =>
      let r := iterationLoop cfg n
      (es ++ r.1, r.2)

/-- Event trace of GaussIPSDTA.call on a fresh instance (lines 191-230
together with reset_block, lines 241-328): reset_block divides by n_blocks
first (so n_blocks = 0 aborts before anything is recorded; no other
validation of n_blocks exists in the source), then the initial loss is
recorded (the self.loss list of a fresh instance is empty) and the callbacks
are invoked once, then the iteration loop runs. -/
def gaussCallEvents (cfg : RunConfig) : List RunEvent × Option RunError :=
  if cfg.nBlocks = 0 then ([], some RunError.zeroDivisionInResetBlock)
  else
    let pre := (if cfg.recordableLoss then [RunEvent.recordLoss] else []) ++
      callbackEvents cfg
    let r := iterationLoop cfg cfg.iteration
    (pre ++ r.1, r.2)

/-! ### Helper lemmas on the control-flow model -/

theorem spatialLoop_fixedPoint (cfg : RunConfig)
    (h : cfg.alg = SpatialAlg.fixedPoint) (n : ℕ) :
    spatialLoop cfg n = (List.replicate n RunEvent.spatialUpdate, none) := by
  induction n with
  | zero => rfl
  | succ n ih =>
    simp only [spatialLoop, spatialModelStep, h, ih, List.replicate_succ,
      List.singleton_append]

theorem iterationBody_fixedPoint (cfg : RunConfig)
    (h : cfg.alg = SpatialAlg.fixedPoint) :
    iterationBody cfg =
      (RunEvent.sourceUpdate ::
        (List.replicate cfg.spatialIteration RunEvent.spatialUpdate ++
          (if cfg.recordableLoss then [RunEvent.recordLoss] else []) ++
          callbackEvents cfg), none) := by
  simp only [iterationBody, updateOnceEvents, spatialLoop_fixedPoint cfg h]
  simp [List.append_assoc]

theorem iterationLoop_fixedPoint_snd (cfg : RunConfig)
    (h : cfg.alg = SpatialAlg.fixedPoint) (n : ℕ) :
    (iterationLoop cfg n).2 = none := by
  induction n with
  | zero => rfl
  | succ n ih =>
    simp only [iterationLoop, iterationBody_fixedPoint cfg h, ih]

theorem sourceUpdate_mem_iterationBody (cfg : RunConfig) :
    RunEvent.sourceUpdate ∈ (iterationBody cfg).1 := by
  unfold iterationBody updateOnceEvents
  rcases h : spatialLoop cfg cfg.spatialIteration with ⟨es, e⟩
  cases e <;> simp

theorem sourceUpdate_mem_iterationLoop (cfg : RunConfig) (n : ℕ)
    (h : 1 ≤ n) : RunEvent.sourceUpdate ∈ (iterationLoop cfg n).1 := by
  obtain ⟨m, rfl⟩ : ∃ m, n = m + 1 := ⟨n - 1, by omega⟩
  have hb := sourceUpdate_mem_iterationBody cfg
  unfold iterationLoop
  rcases hB : iterationBody cfg with ⟨es, e⟩
  rw [hB] at hb
  cases e <;> simp_all

theorem iterationLoop_fixedPoint_count_callbacks (cfg : RunConfig)
    (h : cfg.alg = SpatialAlg.fixedPoint) (n : ℕ) :
    List.count RunEvent.invokeCallback (iterationLoop cfg n).1 =
      n * cfg.nCallbacks := by
  induction n with
  | zero => simp [iterationLoop]
  | succ n ih =>
    simp only [iterationLoop, iterationBody_fixedPoint cfg h]
    simp only [List.count_cons, List.count_append, ih, callbackEvents,
      List.count_replicate]
    cases hrl : cfg.recordableLoss <;> simp <;> ring

/-! ### Loss trace model (GaussIPSDTA.call, lines 202-215) -/

/-- Contents of self.loss after n completed iterations of GaussIPSDTA.call on
a fresh instance with recordable_loss enabled: the list starts empty, the
initial negative log-likelihood l0 is appended before the loop (the guard
len(self.loss) == 0 holds on a fresh instance), and after iteration k the
value iterLoss k is appended (lines 202-204 and 210-215).  The numeric loss
values are abstract parameters here; only the trace structure is modelled. -/
def gaussLossTrace (l0 : ℝ) (iterLoss : ℕ → ℝ) : ℕ → List ℝ
  | 0 => [l0]
  | n + 1 => gaussLossTrace l0 iterLoss n ++ [iterLoss n]

/-- C5: for a fresh instance with loss recording enabled, after a run of N
iterations the loss trace is the ordered sequence of exactly N + 1 scalars
consisting of the initial value followed by the per-iteration values in
order, its length is N + 1, and one further iteration only appends (no
element is removed or overwritten). -/
theorem c5_loss_trace (l0 : ℝ) (f : ℕ → ℝ) (N : ℕ) :
    gaussLossTrace l0 f N = l0 :: (List.range N).map f ∧
    (gaussLossTrace l0 f N).length = N + 1 ∧
    gaussLossTrace l0 f (N + 1) = gaussLossTrace l0 f N ++ [f N] := by
  refine ⟨?_, ?_, rfl⟩
  · induction N with
    | zero => rfl
    | succ n ih =>
      simp only [gaussLossTrace, ih, List.range_succ, List.map_append,
        List.map_cons, List.map_nil, List.cons_append, List.nil_append]
  · induction N with
    | zero => rfl
    | succ n ih => simp only [gaussLossTrace, List.length_append, ih]; rfl

/-! ### Block partition (reset_block, lines 262-283) -/

/-- Ordered block sizes implied by the reshape bookkeeping of reset_block:
with n_neighbors = n_bins // n_blocks and n_remains = n_bins % n_blocks, the
bins split into n_blocks - n_remains low blocks of n_neighbors bins followed
by n_remains high blocks of n_neighbors + 1 bins (the split point of every
np.split call downstream is (n_blocks - n_remains) * n_neighbors). -/
def blockSizes (nBins nBlocks : ℕ) : List ℕ :=
  List.replicate (nBlocks - nBins % nBlocks) (nBins / nBlocks) ++
    List.replicate (nBins % nBlocks) (nBins / nBlocks + 1)

/-- C6: for 1 <= n_blocks <= n_bins, the engine partitions the bins into
n_blocks - r contiguous blocks of size k followed by r contiguous blocks of
size k + 1, where k = n_bins // n_blocks and r = n_bins % n_blocks, and the
sizes sum exactly to n_bins. -/
theorem c6_block_partition (nBins nBlocks : ℕ) (h1 : 1 ≤ nBlocks)
    (h2 : nBlocks ≤ nBins) :
    (blockSizes nBins nBlocks).length = nBlocks ∧
    (blockSizes nBins nBlocks).sum = nBins ∧
    (blockSizes nBins nBlocks).take (nBlocks - nBins % nBlocks) =
      List.replicate (nBlocks - nBins % nBlocks) (nBins / nBlocks) ∧
    (blockSizes nBins nBlocks).drop (nBlocks - nBins % nBlocks) =
      List.replicate (nBins % nBlocks) (nBins / nBlocks + 1) := by
  have hb : 0 < nBlocks := h1
  have hrlt : nBins % nBlocks < nBlocks := Nat.mod_lt _ hb
  have hr : nBins % nBlocks ≤ nBlocks := le_of_lt hrlt
  refine ⟨?_, ?_, ?_, ?_⟩
  · simp [blockSizes, Nat.sub_add_cancel hr]
  · have hmul : nBins % nBlocks * (nBins / nBlocks) ≤
        nBlocks * (nBins / nBlocks) :=
      Nat.mul_le_mul_right _ hr
    have hsum : (blockSizes nBins nBlocks).sum =
        (nBlocks - nBins % nBlocks) * (nBins / nBlocks) +
          nBins % nBlocks * (nBins / nBlocks + 1) := by
      simp [blockSizes, List.sum_replicate, smul_eq_mul]
    rw [hsum, Nat.sub_mul, Nat.mul_add, Nat.mul_one, ← Nat.add_assoc,
      Nat.sub_add_cancel hmul]
    exact Nat.div_add_mod nBins nBlocks
  · simp [blockSizes, List.take_left']
  · simp [blockSizes, List.drop_left']

/-- Witness for C6 at n_bins = 4, n_blocks = 3: the partition is [1, 1, 2]
and its sizes sum to 4. -/
theorem c6_witness :
    1 ≤ 3 ∧ 3 ≤ 4 ∧ (blockSizes 4 3).sum = 4 :=
  ⟨by decide, by decide, (c6_block_partition 4 3 (by decide) (by decide)).2.1⟩

/-! ### C2: VCD together with remainder blocks -/

/-- Concrete configuration for C2: kondo preset sizes of end-to-end scenario
C of the spec, n_bins = 4, n_blocks = 3 (so remainder blocks exist), VCD
spatial updates, one iteration. -/
def c2cfg : RunConfig :=
  { nBins := 4, nBlocks := 3, recordableLoss := true, nCallbacks := 0,
    alg := SpatialAlg.vcd, spatialIteration := 10, iteration := 1 }

/-- C2 counterexample: with the VCD variant and a remainder partition the run
does fail, but a source-model update has already executed (and the initial
loss was already recorded) by the time the error surfaces, contradicting the
claim that no update runs before the error. -/
theorem c2_counterexample :
    c2cfg.alg = SpatialAlg.vcd ∧ c2cfg.nBins % c2cfg.nBlocks ≠ 0 ∧
    (gaussCallEvents c2cfg).2 = some RunError.spatialVcdRemainder ∧
    RunEvent.sourceUpdate ∈ (gaussCallEvents c2cfg).1 := by decide

/-- C2 amended: whenever the VCD spatial update is configured together with a
block partition that has remainder blocks, the run fails; the failure
surfaces inside the first spatial-model update of the first iteration, after
the full source-model update of that iteration (and the pre-loop loss
recording and callback sweep) has executed, and before any spatial-model
update completes. -/
theorem c2_vcd_remainder (cfg : RunConfig) (halg : cfg.alg = SpatialAlg.vcd)
    (hrem : cfg.nBins % cfg.nBlocks ≠ 0) (hnb : cfg.nBlocks ≠ 0)
    (hs : 1 ≤ cfg.spatialIteration) (hi : 1 ≤ cfg.iteration) :
    (gaussCallEvents cfg).2 = some RunError.spatialVcdRemainder ∧
    (gaussCallEvents cfg).1 =
      (if cfg.recordableLoss then [RunEvent.recordLoss] else []) ++
        callbackEvents cfg ++ [RunEvent.sourceUpdate] ∧
    RunEvent.spatialUpdate ∉ (gaussCallEvents cfg).1 := by
  obtain ⟨m, hm⟩ : ∃ m, cfg.spatialIteration = m + 1 :=
    ⟨cfg.spatialIteration - 1, by omega⟩
  obtain ⟨n, hn⟩ : ∃ n, cfg.iteration = n + 1 :=
    ⟨cfg.iteration - 1, by omega⟩
  have hstep : spatialModelStep cfg = ([], some RunError.spatialVcdRemainder) := by
    simp [spatialModelStep, halg, hrem]
  have hsl : spatialLoop cfg cfg.spatialIteration =
      ([], some RunError.spatialVcdRemainder) := by
    rw [hm]
    simp [spatialLoop, hstep]
  have hbody : iterationBody cfg =
      ([RunEvent.sourceUpdate], some RunError.spatialVcdRemainder) := by
    simp [iterationBody, updateOnceEvents, hsl]
  have hloop : iterationLoop cfg cfg.iteration =
      ([RunEvent.sourceUpdate], some RunError.spatialVcdRemainder) := by
    rw [hn]
    simp [iterationLoop, hbody]
  have hcall : gaussCallEvents cfg =
      ((if cfg.recordableLoss then [RunEvent.recordLoss] else []) ++
        callbackEvents cfg ++ [RunEvent.sourceUpdate],
        some RunError.spatialVcdRemainder) := by
    simp [gaussCallEvents, hnb, hloop, List.append_assoc]
  refine ⟨by simp [hcall], by simp [hcall], ?_⟩
  rw [hcall]
  simp only [List.mem_append, List.mem_singleton, List.mem_replicate,
    callbackEvents]
  rintro ((h | ⟨-, h⟩) | h)
  · rcases hc : cfg.recordableLoss <;> simp [hc] at h
  · exact RunEvent.noConfusion h
  · exact RunEvent.noConfusion h

/-- Witness for C2 at the concrete configuration c2cfg. -/
theorem c2_witness :
    c2cfg.alg = SpatialAlg.vcd ∧ c2cfg.nBins % c2cfg.nBlocks ≠ 0 ∧
    (gaussCallEvents c2cfg).2 = some RunError.spatialVcdRemainder :=
  ⟨rfl, by decide,
    (c2_vcd_remainder c2cfg rfl (by decide) (by decide) (by decide)
      (by decide)).1⟩

/-! ### C3: no validation of n_blocks -/

/-- Concrete configuration for C3: n_blocks = 5 lies outside [1, n_bins] for
n_bins = 4 (the derived n_neighbors is 0 and every bin lands in a remainder
block), fixed-point variant, one iteration. -/
def c3cfg : RunConfig :=
  { nBins := 4, nBlocks := 5, recordableLoss := true, nCallbacks := 0,
    alg := SpatialAlg.fixedPoint, spatialIteration := 1, iteration := 1 }

/-- Concrete configuration with n_blocks = 0, the only value of n_blocks the
source aborts on (ZeroDivisionError at the division in reset_block). -/
def c3zcfg : RunConfig :=
  { nBins := 4, nBlocks := 0, recordableLoss := true, nCallbacks := 0,
    alg := SpatialAlg.fixedPoint, spatialIteration := 1, iteration := 1 }

/-- C3 counterexample: with n_blocks = 5 > n_bins = 4 no configuration error
is surfaced at all: the run starts, the initial loss is recorded, and both a
source-model and a spatial-model update execute, contradicting the claim
that the run does not start. -/
theorem c3_counterexample :
    c3cfg.nBins < c3cfg.nBlocks ∧
    (gaussCallEvents c3cfg).2 = none ∧
    RunEvent.recordLoss ∈ (gaussCallEvents c3cfg).1 ∧
    RunEvent.sourceUpdate ∈ (gaussCallEvents c3cfg).1 ∧
    RunEvent.spatialUpdate ∈ (gaussCallEvents c3cfg).1 := by decide

/-- Concrete VCD configuration with n_blocks = 5 > n_bins = 4 for the C3
witness: even with the variant that later fails on remainder partitions, the
run starts (loss recorded and a source-model update executed). -/
def c3vcfg : RunConfig :=
  { nBins := 4, nBlocks := 5, recordableLoss := true, nCallbacks := 0,
    alg := SpatialAlg.vcd, spatialIteration := 10, iteration := 1 }

/-- C3 amended: the source performs no range validation of n_blocks.  Only
n_blocks = 0 aborts the run, with a division error inside reset_block raised
before any loss recording, callback or update.  For every n_blocks >= 1 -
including values larger than n_bins - no configuration error is surfaced and
the run starts regardless of variant: when loss recording is enabled the
initial loss is recorded, and when at least one iteration is requested the
first source-model update executes.  With the fixed-point variant the run
then also completes without error; with the VCD variant a remainder
partition still fails later, inside the first spatial-model update (the C2
behaviour), a mid-run failure rather than an immediate configuration
error. -/
theorem c3_no_validation (cfg : RunConfig) :
    (cfg.nBlocks = 0 →
      gaussCallEvents cfg = ([], some RunError.zeroDivisionInResetBlock)) ∧
    (cfg.nBlocks ≠ 0 → cfg.recordableLoss = true →
      RunEvent.recordLoss ∈ (gaussCallEvents cfg).1) ∧
    (cfg.nBlocks ≠ 0 → 1 ≤ cfg.iteration →
      RunEvent.sourceUpdate ∈ (gaussCallEvents cfg).1) ∧
    (cfg.nBlocks ≠ 0 → cfg.alg = SpatialAlg.fixedPoint →
      (gaussCallEvents cfg).2 = none) := by
  refine ⟨?_, ?_, ?_, ?_⟩
  · intro h
    simp [gaussCallEvents, h]
  · intro hnb hrl
    simp [gaussCallEvents, hnb, hrl]
  · intro hnb hit
    have hmem := sourceUpdate_mem_iterationLoop cfg cfg.iteration hit
    simp only [gaussCallEvents, if_neg hnb, List.mem_append]
    exact Or.inr hmem
  · intro hnb halg
    simp [gaussCallEvents, hnb, iterationLoop_fixedPoint_snd cfg halg]

/-- Witness for C3 at the concrete configurations c3zcfg (abort before
anything happens), c3vcfg (VCD variant, run starts anyway) and c3cfg
(fixed-point variant, run completes). -/
theorem c3_witness :
    gaussCallEvents c3zcfg = ([], some RunError.zeroDivisionInResetBlock) ∧
    RunEvent.recordLoss ∈ (gaussCallEvents c3vcfg).1 ∧
    RunEvent.sourceUpdate ∈ (gaussCallEvents c3vcfg).1 ∧
    (gaussCallEvents c3cfg).2 = none :=
  ⟨(c3_no_validation c3zcfg).1 rfl,
    (c3_no_validation c3vcfg).2.1 (by decide) rfl,
    (c3_no_validation c3vcfg).2.2.1 (by decide) (by decide),
    (c3_no_validation c3cfg).2.2.2 (by decide) rfl⟩

/-! ### C8: callbacks are invoked once before the loop as well -/

/-- Concrete configuration for C8: one callback, one iteration, fixed-point
variant, uniform partition. -/
def c8cfg : RunConfig :=
  { nBins := 4, nBlocks := 2, recordableLoss := true, nCallbacks := 1,
    alg := SpatialAlg.fixedPoint, spatialIteration := 1, iteration := 1 }

/-- C8 counterexample: with one configured callback and a run of N = 1
iteration the callback is invoked twice, not once: once before the loop
(line 206-208) and once after the iteration, contradicting the claim of
exactly N invocations. -/
theorem c8_counterexample :
    c8cfg.iteration = 1 ∧ c8cfg.nCallbacks = 1 ∧
    List.count RunEvent.invokeCallback (gaussCallEvents c8cfg).1 = 2 := by
  decide

/-- C8 amended: for a run of N iterations each configured observer callback
is invoked exactly N + 1 times: once after initialization and the initial
loss recording, before the loop, and once per iteration (total callback
invocations: nCallbacks * (N + 1)); shown for the fixed-point variant, where
no update fails. -/
theorem c8_callbacks_per_run (cfg : RunConfig)
    (halg : cfg.alg = SpatialAlg.fixedPoint) (hnb : cfg.nBlocks ≠ 0) :
    List.count RunEvent.invokeCallback (gaussCallEvents cfg).1 =
      cfg.nCallbacks * (cfg.iteration + 1) := by
  have hcount := iterationLoop_fixedPoint_count_callbacks cfg halg cfg.iteration
  simp only [gaussCallEvents, if_neg hnb, List.count_append, callbackEvents,
    List.count_replicate]
  rw [hcount]
  cases hrl : cfg.recordableLoss <;> simp <;> ring

/-- Witness for C8 at the concrete configuration c8cfg. -/
theorem c8_witness :
    c8cfg.alg = SpatialAlg.fixedPoint ∧ c8cfg.nBlocks ≠ 0 ∧
    List.count RunEvent.invokeCallback (gaussCallEvents c8cfg).1 =
      c8cfg.nCallbacks * (c8cfg.iteration + 1) :=
  ⟨rfl, by decide, c8_callbacks_per_run c8cfg rfl (by decide)⟩

/-! ### C9: the spatial_iteration constructor argument is overwritten -/

/-- Author presets of GaussIPSDTA (the module level dictionaries of lines
12-20, both with n_blocks = 1024, spatial_iteration 1 for ikeshita and 10
for kondo). -/
inductive IpsdtaAuthor
  | ikeshita
  | kondo
  deriving DecidableEq

/-- Error raised by GaussIPSDTA.init when extra keyword arguments outside the
author preset keys are supplied. -/
inductive InitError
  | invalidKeywords
  deriving DecidableEq

/-- Instance attributes relevant to C9 after GaussIPSDTA.init: the
spatial_iteration attribute (None when never assigned an int) and the
n_blocks attribute (absent before the preset is applied). -/
structure GaussInitAttrs where
  spatialIterationAttr : Option Int
  nBlocksAttr : Option Nat
  deriving DecidableEq

/-- Embedding of the attribute assignments of GaussIPSDTA.init (lines
161-189): self.spatial_iteration is first assigned the constructor argument
(line 172), then the author preset dictionary is written over the instance
attribute for each of its keys, spatial_iteration and n_blocks (lines
179-180 and 184-185), then the extra keyword arguments are written (lines
186-187).  In Python the named parameter spatial_iteration can never reach
the kwargs dictionary, so only n_blocks can arrive there; unknown extra
keywords raise ValueError (lines 177-178 and 182-183). -/
def gaussInit (author : IpsdtaAuthor) (spatialIterationArg : Option Int)
    (kwNBlocks : Option Nat) (hasUnknownKw : Bool) :
    Except InitError GaussInitAttrs :=
  if hasUnknownKw then Except.error InitError.invalidKeywords
  else
    let presetSpatial : Int :=
      match author with
      | IpsdtaAuthor.ikeshita => 1
      | IpsdtaAuthor.kondo => 10
    let s1 : GaussInitAttrs :=
      { spatialIterationAttr := spatialIterationArg, nBlocksAttr := none }
    let s2 : GaussInitAttrs :=
      { s1 with spatialIterationAttr := some presetSpatial, nBlocksAttr := some 1024 }
    let s3 : GaussInitAttrs :=
      match kwNBlocks with
      | some nb => { s2 with nBlocksAttr := some nb }
      | none => s2
    Except.ok s3

/-- C9: whatever value is passed as the spatial_iteration constructor
argument (and whatever valid n_blocks keyword accompanies it), the
constructed instance carries the author preset value of spatial_iteration:
1 for ikeshita and 10 for kondo.  The constructor argument is unconditionally
overwritten by the preset. -/
theorem c9_spatial_iteration_preset (arg : Option Int) (kw : Option Nat) :
    (gaussInit IpsdtaAuthor.ikeshita arg kw false).map
        GaussInitAttrs.spatialIterationAttr = Except.ok (some 1) ∧
    (gaussInit IpsdtaAuthor.kondo arg kw false).map
        GaussInitAttrs.spatialIterationAttr = Except.ok (some 10) := by
  cases kw <;> simp [gaussInit, Except.map]

/-! ### C4: trace normalization of the source model -/

/-- Sum over blocks of the real part of the trace of the basis matrices of
one source and one basis atom (update_source_model, lines 361-366 and
370-373: the per-block traces, concatenated over the low and high groups
when a remainder exists, are summed over the block axis).  The block sizes
are an arbitrary size list, covering both the uniform and the remainder
shape. -/
noncomputable def basisTraceSum {S K B : ℕ} {sz : Fin B → ℕ}
    (U : Fin S → Fin K → (b : Fin B) → Matrix (Fin (sz b)) (Fin (sz b)) ℂ)
    (s : Fin S) (k : Fin K) : ℝ :=
  ∑ b, (Matrix.trace (U s k b)).re

/-- Basis rescaling of the normalization pass (update_source_model, lines
367 and 374): every basis matrix of a source and atom is divided entrywise
by the trace sum of that source and atom. -/
noncomputable def normalizeBasis {S K B : ℕ} {sz : Fin B → ℕ}
    (U : Fin S → Fin K → (b : Fin B) → Matrix (Fin (sz b)) (Fin (sz b)) ℂ)
    (s : Fin S) (k : Fin K) (b : Fin B) :
    Matrix (Fin (sz b)) (Fin (sz b)) ℂ :=
  Matrix.of fun i j => U s k b i j / ((basisTraceSum U s k : ℝ) : ℂ)

/-- Activation rescaling of the normalization pass (update_source_model,
lines 369 and 376): every activation entry of a source and atom is
multiplied by the same trace sum the basis was divided by. -/
noncomputable def normalizeActivation {S K T B : ℕ} {sz : Fin B → ℕ}
    (U : Fin S → Fin K → (b : Fin B) → Matrix (Fin (sz b)) (Fin (sz b)) ℂ)
    (V : Fin S → Fin K → Fin T → ℝ) (s : Fin S) (k : Fin K) (t : Fin T) : ℝ :=
  V s k t * basisTraceSum U s k

/-- C4: after a normalization pass, for every source and basis atom with a
nonzero (positive) trace sum, the sum over blocks of the trace of the
rescaled basis equals 1, and the model product is preserved: for every
block, matrix entry and frame, rescaled basis times rescaled activation
equals the original basis times the original activation. -/
theorem c4_normalization {S K T B : ℕ} {sz : Fin B → ℕ}
    (U : Fin S → Fin K → (b : Fin B) → Matrix (Fin (sz b)) (Fin (sz b)) ℂ)
    (V : Fin S → Fin K → Fin T → ℝ) (s : Fin S) (k : Fin K)
    (h : 0 < basisTraceSum U s k) :
    (∑ b, (Matrix.trace (normalizeBasis U s k b)).re) = 1 ∧
    ∀ (b : Fin B) (i j : Fin (sz b)) (t : Fin T),
      normalizeBasis U s k b i j * ((normalizeActivation U V s k t : ℝ) : ℂ) =
        U s k b i j * ((V s k t : ℝ) : ℂ) := by
  have hne : basisTraceSum U s k ≠ 0 := ne_of_gt h
  constructor
  · have htr : ∀ b : Fin B, Matrix.trace (normalizeBasis U s k b) =
        Matrix.trace (U s k b) / ((basisTraceSum U s k : ℝ) : ℂ) := by
      intro b
      simp [Matrix.trace, normalizeBasis, Matrix.diag, Finset.sum_div]
    simp only [htr, Complex.div_ofReal_re, ← Finset.sum_div]
    exact div_self hne
  · intro b i j t
    have hcne : ((basisTraceSum U s k : ℝ) : ℂ) ≠ 0 :=
      Complex.ofReal_ne_zero.mpr hne
    simp only [normalizeBasis, normalizeActivation, Matrix.of_apply,
      Complex.ofReal_mul]
    field_simp
    ring

/-- Concrete basis family for the C4 witness: one source, one atom, one
block of size one, with the identity matrix as its basis. -/
noncomputable def c4wU : Fin 1 → Fin 1 → (b : Fin 1) →
    Matrix (Fin 1) (Fin 1) ℂ :=
  fun _ _ _ => 1

/-- Concrete activation for the C4 witness. -/
noncomputable def c4wV : Fin 1 → Fin 1 → Fin 1 → ℝ := fun _ _ _ => 1

/-- Witness for C4 at the concrete one-block basis c4wU: the trace sum is
positive and after normalization the trace sum equals 1. -/
theorem c4_witness :
    0 < basisTraceSum c4wU 0 0 ∧
    (∑ b, (Matrix.trace (normalizeBasis c4wU 0 0 b)).re) = 1 := by
  have h : 0 < basisTraceSum c4wU 0 0 := by
    simp [basisTraceSum, c4wU]
  exact ⟨h, (c4_normalization c4wU c4wV 0 0 h).1⟩

/-! ### C1: the returned estimate is rescaled by projection back -/

/-- Embedding of IPSDTAbase.separate (lines 138-150): the demixing matrix of
every bin is applied to the observation of that bin; channel and source
counts agree throughout the source. -/
noncomputable def separate {S B T : ℕ} (X : Fin S → Fin B → Fin T → ℂ)
    (W : Fin B → Fin S → Fin S → ℂ) : Fin S → Fin B → Fin T → ℂ :=
  fun s b t => ∑ c, W b s c * X c b t

/-- Modelled from the spec: projection_back of algorithm.projection_back is
not under src/; the spec describes it as the excluded post-hoc scale
correction applied once after convergence, computing per source and bin the
least-squares scale that aligns the estimate of that source with the
reference-channel observation. -/
noncomputable def projectionBackScale {S B T : ℕ}
    (Y : Fin S → Fin B → Fin T → ℂ) (ref : Fin B → Fin T → ℂ)
    (n : Fin S) (b : Fin B) : ℂ :=
  (∑ t, ref b t * star (Y n b t)) / (∑ t, Y n b t * star (Y n b t))

/-- Tail of GaussIPSDTA.call (lines 221-230): after the loop the estimate is
recomputed from the final demixing matrix and the observation, and the
returned tensor is that estimate multiplied per source and bin by the
projection-back scale against the reference channel. -/
noncomputable def gaussCallOutput {S B T : ℕ} (X : Fin S → Fin B → Fin T → ℂ)
    (W : Fin B → Fin S → Fin S → ℂ) (referenceId : Fin S)
    (n : Fin S) (b : Fin B) (t : Fin T) : ℂ :=
  separate X W n b t * projectionBackScale (separate X W) (X referenceId) n b

/-- Concrete one-channel, one-bin, one-frame observation for C1. -/
noncomputable def c1X : Fin 1 → Fin 1 → Fin 1 → ℂ := fun _ _ _ => 1

/-- Concrete demixing matrix [[2]] for the C1 counterexample. -/
noncomputable def c1W : Fin 1 → Fin 1 → Fin 1 → ℂ := fun _ _ _ => 2

/-- Concrete identity demixing matrix for the C1 witness. -/
noncomputable def c1Wid : Fin 1 → Fin 1 → Fin 1 → ℂ := fun _ _ _ => 1

/-- C1 counterexample: a one-channel, one-bin, one-frame observation with
demixing matrix [[2]]: the demixed estimate is 2, the projection-back scale
is 1/2, and the returned tensor holds 1, not 2 - the returned estimate is
altered by the projection-back scale correction. -/
theorem c1_counterexample :
    gaussCallOutput c1X c1W (0 : Fin 1) 0 0 0 ≠ separate c1X c1W 0 0 0 := by
  have hsep : separate c1X c1W (0 : Fin 1) 0 0 = 2 := by
    simp [separate, c1X, c1W]
  have hscale : projectionBackScale (separate c1X c1W) (c1X 0) 0 0 = 1 / 2 := by
    simp only [projectionBackScale, hsep, Fin.sum_univ_one, c1X]
    norm_num [Complex.ext_iff]
  simp only [gaussCallOutput, hsep, hscale]
  norm_num [Complex.ext_iff]

/-- C1 amended: the tensor returned by GaussIPSDTA.call is the demixed
estimate W_final applied to the observation, rescaled per source and bin by
the projection-back scale; it equals the plain demixed estimate exactly when
that scale is 1 everywhere. -/
theorem c1_output_scaled {S B T : ℕ} (X : Fin S → Fin B → Fin T → ℂ)
    (W : Fin B → Fin S → Fin S → ℂ) (r : Fin S)
    (h : ∀ n b, projectionBackScale (separate X W) (X r) n b = 1) :
    ∀ n b t, gaussCallOutput X W r n b t = separate X W n b t := by
  intro n b t
  simp [gaussCallOutput, h n b]

/-- Witness for C1 with the identity demixing matrix on a one-channel
observation: the projection-back scale is 1 and the output equals the
demixed estimate. -/
theorem c1_witness :
    (∀ n b : Fin 1,
      projectionBackScale (separate c1X c1Wid) (c1X 0) n b = 1) ∧
    gaussCallOutput c1X c1Wid (0 : Fin 1) 0 0 0 =
      separate c1X c1Wid 0 0 0 := by
  have h : ∀ n b : Fin 1,
      projectionBackScale (separate c1X c1Wid) (c1X 0) n b = 1 := by
    intro n b
    simp [projectionBackScale, separate, c1X, c1Wid]
  exact ⟨h, c1_output_scaled c1X c1Wid (0 : Fin 1) h 0 0 0⟩

/-! ### Scalar embedding of the source-model updates (block size one)

The configurations with n_blocks = n_bins make every block one bin wide
(n_neighbors = 1, n_remains = 0), so every block matrix of the source is
1-by-1 and the batched matrix algebra of the remainder-free branches reduces
to complex scalar arithmetic: matrix product and entrywise product coincide,
the inverse is the reciprocal, the trace is the single entry. -/

/-- Modelled from the spec: to_PSD of utils.utils_linalg is not under src/;
section 4.1 of the spec describes it as eigendecomposing a batch of
Hermitian matrices, clipping negative eigenvalues at zero and
reconstructing.  Specialized to 1-by-1 matrices: the Hermitian part of [z]
is its real part and the single (real) eigenvalue is clipped at zero. -/
noncomputable def toPSD1 (z : ℂ) : ℂ := ((max z.re 0 : ℝ) : ℂ)

/-- Helper: the 1-by-1 PSD projection fixes nonnegative reals. -/
theorem toPSD1_ofReal (x : ℝ) (h : 0 ≤ x) : toPSD1 ((x : ℝ) : ℂ) = ((x : ℝ) : ℂ) := by
  simp [toPSD1, max_eq_left h]

/-- Block-local model covariance with its PSD projection
(update_activation_mm, lines 699 and 702), for block size one: the sum over
basis atoms of basis entry times activation, PSD projected. -/
noncomputable def mmModelCov {S K T B : ℕ} (U : Fin S → Fin B → Fin K → ℂ)
    (V : Fin S → Fin K → Fin T → ℝ) (s : Fin S) (t : Fin T) (b : Fin B) : ℂ :=
  toPSD1 (∑ k, U s b k * ((V s k t : ℝ) : ℂ))

/-- Inverse of the model covariance (update_activation_mm, line 706), for
block size one. -/
noncomputable def mmInvR {S K T B : ℕ} (U : Fin S → Fin B → Fin K → ℂ)
    (V : Fin S → Fin K → Fin T → ℝ) (s : Fin S) (t : Fin T) (b : Fin B) : ℂ :=
  (mmModelCov U V s t b)⁻¹

/-- Estimate outer product with the eps diagonal load and its PSD projection
(update_activation_mm, lines 703-704), for block size one. -/
noncomputable def mmYY {S B T : ℕ} (eps : ℝ) (X : Fin S → Fin B → Fin T → ℂ)
    (W : Fin B → Fin S → Fin S → ℂ) (s : Fin S) (t : Fin T) (b : Fin B) : ℂ :=
  toPSD1 (separate X W s b t * star (separate X W s b t) + ((eps : ℝ) : ℂ))

/-- Numerator trace of update_activation_mm (lines 707-709), for block size
one: the real part of (R inverse times U) times (R inverse times the loaded
outer product). -/
noncomputable def mmNumerator {S K T B : ℕ} (eps : ℝ)
    (X : Fin S → Fin B → Fin T → ℂ) (W : Fin B → Fin S → Fin S → ℂ)
    (U : Fin S → Fin B → Fin K → ℂ) (V : Fin S → Fin K → Fin T → ℝ)
    (s : Fin S) (k : Fin K) (t : Fin T) (b : Fin B) : ℝ :=
  ((mmInvR U V s t b * U s b k) * (mmInvR U V s t b * mmYY eps X W s t b)).re

/-- Denominator trace of update_activation_mm (line 710), for block size
one: the real part of R inverse times U. -/
noncomputable def mmDenominator {S K T B : ℕ}
    (U : Fin S → Fin B → Fin K → ℂ) (V : Fin S → Fin K → Fin T → ℝ)
    (s : Fin S) (k : Fin K) (t : Fin T) (b : Fin B) : ℝ :=
  (mmInvR U V s t b * U s b k).re

/-- Final lines of update_activation_mm (lines 714-717): numerator and
denominator are summed over the block axis only (the frame axis remains),
the summed numerator is clipped at 0, the summed denominator is floored at
eps, and the activation is multiplied by the square root of their ratio. -/
noncomputable def activationMMTail {S K T B : ℕ} (eps : ℝ)
    (num den : Fin S → Fin K → Fin T → Fin B → ℝ)
    (V : Fin S → Fin K → Fin T → ℝ) (s : Fin S) (k : Fin K) (t : Fin T) : ℝ :=
  V s k t *
    Real.sqrt ((if (∑ b, num s k t b) < 0 then 0 else ∑ b, num s k t b) /
      (if (∑ b, den s k t b) < eps then eps else ∑ b, den s k t b))

/-- Embedding of GaussIPSDTA.update_activation_mm (remainder-free branch,
lines 697-719) for block size one. -/
noncomputable def updateActivationMM1 {S K T B : ℕ} (eps : ℝ)
    (X : Fin S → Fin B → Fin T → ℂ) (W : Fin B → Fin S → Fin S → ℂ)
    (U : Fin S → Fin B → Fin K → ℂ) (V : Fin S → Fin K → Fin T → ℝ) :
    Fin S → Fin K → Fin T → ℝ :=
  activationMMTail eps (mmNumerator eps X W U V) (mmDenominator U V) V

/-- The activation update as claim C7 words it (refinement definition
following the claim wording, for comparison with the source): numerator and
denominator summed over frames AND blocks before the clip and the floor, so
the multiplier no longer depends on the frame. -/
noncomputable def activationMMTailClaimed {S K T B : ℕ} (eps : ℝ)
    (num den : Fin S → Fin K → Fin T → Fin B → ℝ)
    (V : Fin S → Fin K → Fin T → ℝ) (s : Fin S) (k : Fin K) (t : Fin T) : ℝ :=
  V s k t *
    Real.sqrt
      ((if (∑ u, ∑ b, num s k u b) < 0 then 0 else ∑ u, ∑ b, num s k u b) /
        (if (∑ u, ∑ b, den s k u b) < eps then eps else ∑ u, ∑ b, den s k u b))

/-- The whole activation update under the claimed frame-and-block
summation. -/
noncomputable def updateActivationMM1Claimed {S K T B : ℕ} (eps : ℝ)
    (X : Fin S → Fin B → Fin T → ℂ) (W : Fin B → Fin S → Fin S → ℂ)
    (U : Fin S → Fin B → Fin K → ℂ) (V : Fin S → Fin K → Fin T → ℝ) :
    Fin S → Fin K → Fin T → ℝ :=
  activationMMTailClaimed eps (mmNumerator eps X W U V) (mmDenominator U V) V

/-- Concrete observation for C7: one channel, one bin, two frames, with
values 1 and 2. -/
noncomputable def c7X : Fin 1 → Fin 1 → Fin 2 → ℂ :=
  fun _ _ => ![((1 : ℝ) : ℂ), ((2 : ℝ) : ℂ)]

/-- Concrete identity demixing matrix for C7. -/
noncomputable def c7W : Fin 1 → Fin 1 → Fin 1 → ℂ := fun _ _ _ => 1

/-- Concrete one-atom basis for C7. -/
noncomputable def c7U : Fin 1 → Fin 1 → Fin 1 → ℂ := fun _ _ _ => 1

/-- Concrete all-ones activation for C7. -/
noncomputable def c7V : Fin 1 → Fin 1 → Fin 2 → ℝ := fun _ _ _ => 1

theorem c7_sep0 : separate c7X c7W 0 0 0 = ((1 : ℝ) : ℂ) := by
  simp [separate, c7X, c7W]

theorem c7_sep1 : separate c7X c7W 0 0 1 = ((2 : ℝ) : ℂ) := by
  simp [separate, c7X, c7W]

theorem c7_inv : ∀ t, mmInvR c7U c7V 0 t 0 = 1 := by
  intro t
  have hcov : mmModelCov c7U c7V 0 t 0 = 1 := by
    have : ((1 : ℝ) : ℂ) = 1 := Complex.ofReal_one
    simp [mmModelCov, c7U, c7V, toPSD1]
  simp [mmInvR, hcov]

theorem c7_yy0 : mmYY EPS c7X c7W 0 0 0 = ((1 + EPS : ℝ) : ℂ) := by
  have harg : separate c7X c7W 0 0 0 * star (separate c7X c7W 0 0 0) +
      ((EPS : ℝ) : ℂ) = ((1 + EPS : ℝ) : ℂ) := by
    rw [c7_sep0, Complex.star_def, Complex.conj_ofReal]
    push_cast
    ring
  rw [mmYY, harg, toPSD1_ofReal]
  norm_num [EPS]

theorem c7_yy1 : mmYY EPS c7X c7W 0 1 0 = ((4 + EPS : ℝ) : ℂ) := by
  have harg : separate c7X c7W 0 0 1 * star (separate c7X c7W 0 0 1) +
      ((EPS : ℝ) : ℂ) = ((4 + EPS : ℝ) : ℂ) := by
    rw [c7_sep1, Complex.star_def, Complex.conj_ofReal]
    push_cast
    ring
  rw [mmYY, harg, toPSD1_ofReal]
  norm_num [EPS]

theorem c7_num0 : mmNumerator EPS c7X c7W c7U c7V 0 0 0 0 = 1 + EPS := by
  simp [mmNumerator, c7_inv, c7_yy0, c7U]

theorem c7_num1 : mmNumerator EPS c7X c7W c7U c7V 0 0 1 0 = 4 + EPS := by
  simp [mmNumerator, c7_inv, c7_yy1, c7U]

theorem c7_den : ∀ t, mmDenominator c7U c7V 0 0 t 0 = 1 := by
  intro t
  simp [mmDenominator, c7_inv, c7U]

/-- C7 counterexample: on a concrete two-frame input the source update
multiplies frame 0 of the activation by sqrt(1 + eps) (the numerator and
denominator are summed over blocks only, so each frame keeps its own
multiplier), while the claimed frame-and-block summation would multiply it
by sqrt((5 + 2 eps) / 2); the two results differ. -/
theorem c7_counterexample :
    updateActivationMM1 EPS c7X c7W c7U c7V 0 0 0 ≠
      updateActivationMM1Claimed EPS c7X c7W c7U c7V 0 0 0 := by
  have hcode : updateActivationMM1 EPS c7X c7W c7U c7V 0 0 0 =
      Real.sqrt (1 + EPS) := by
    rw [updateActivationMM1, activationMMTail]
    rw [Fin.sum_univ_one, Fin.sum_univ_one, c7_num0, c7_den 0]
    rw [if_neg (by norm_num [EPS]), if_neg (by norm_num [EPS])]
    simp [c7V]
  have hclaim : updateActivationMM1Claimed EPS c7X c7W c7U c7V 0 0 0 =
      Real.sqrt ((5 + 2 * EPS) / 2) := by
    rw [updateActivationMM1Claimed, activationMMTailClaimed]
    have hn : (∑ u : Fin 2, ∑ b : Fin 1,
        mmNumerator EPS c7X c7W c7U c7V 0 0 u b) = 5 + 2 * EPS := by
      rw [Fin.sum_univ_two, Fin.sum_univ_one, Fin.sum_univ_one, c7_num0,
        c7_num1]
      ring
    have hd : (∑ u : Fin 2, ∑ b : Fin 1,
        mmDenominator c7U c7V 0 0 u b) = 2 := by
      rw [Fin.sum_univ_two, Fin.sum_univ_one, Fin.sum_univ_one, c7_den 0,
        c7_den 1]
      norm_num
    rw [hn, hd]
    rw [if_neg (by norm_num [EPS]), if_neg (by norm_num [EPS])]
    simp [c7V]
  rw [hcode, hclaim]
  have hlt : Real.sqrt (1 + EPS) < Real.sqrt ((5 + 2 * EPS) / 2) :=
    Real.sqrt_lt_sqrt (by norm_num [EPS]) (by norm_num [EPS])
  exact ne_of_lt hlt

/-- C7 amended: in the MM activation update the numerator trace is clipped
at 0 after summation over the block axis only (the activation multiplier
stays frame dependent), the denominator trace is floored at eps after the
same block summation, and the update maps every elementwise-nonnegative
activation tensor to an elementwise-nonnegative activation tensor. -/
theorem c7_activation_mm {S K T B : ℕ} (eps : ℝ)
    (X : Fin S → Fin B → Fin T → ℂ) (W : Fin B → Fin S → Fin S → ℂ)
    (U : Fin S → Fin B → Fin K → ℂ) (V : Fin S → Fin K → Fin T → ℝ)
    (s : Fin S) (k : Fin K) (t : Fin T) (h : 0 ≤ V s k t) :
    updateActivationMM1 eps X W U V s k t =
      V s k t * Real.sqrt
        ((if (∑ b, mmNumerator eps X W U V s k t b) < 0 then 0
            else ∑ b, mmNumerator eps X W U V s k t b) /
          (if (∑ b, mmDenominator U V s k t b) < eps then eps
            else ∑ b, mmDenominator U V s k t b)) ∧
    0 ≤ updateActivationMM1 eps X W U V s k t := by
  exact ⟨rfl, mul_nonneg h (Real.sqrt_nonneg _)⟩

/-- Witness for C7 at the concrete two-frame input. -/
theorem c7_witness :
    (0 : ℝ) ≤ c7V 0 0 0 ∧
    0 ≤ updateActivationMM1 EPS c7X c7W c7U c7V 0 0 0 :=
  ⟨by simp [c7V],
    (c7_activation_mm EPS c7X c7W c7U c7V 0 0 0 (by simp [c7V])).2⟩

/-! ### C10: update_basis_em floors and stores the activation -/

/-- Embedding of GaussIPSDTA.update_basis_em (remainder-free branch, lines
442-465) for block size one: the per-atom covariance contributions, the
posterior responsibility Phi, the in-place activation floor of line 460, the
frame average of Phi over the floored activation, and the final store of
both tensors (line 465). -/
noncomputable def updateBasisEm1 {S K T B : ℕ} (eps : ℝ)
    (X : Fin S → Fin B → Fin T → ℂ) (W : Fin B → Fin S → Fin S → ℂ)
    (U : Fin S → Fin B → Fin K → ℂ) (V : Fin S → Fin K → Fin T → ℝ) :
    (Fin S → Fin B → Fin K → ℂ) × (Fin S → Fin K → Fin T → ℝ) :=
  let Y := separate X W
  let Rb : Fin S → Fin K → Fin T → Fin B → ℂ :=
    fun s k t b => U s b k * ((V s k t : ℝ) : ℂ)
  let R : Fin S → Fin T → Fin B → ℂ :=
    fun s t b => toPSD1 (∑ k, Rb s k t b)
  let invR : Fin S → Fin T → Fin B → ℂ := fun s t b => (R s t b)⁻¹
  let RR : Fin S → Fin K → Fin T → Fin B → ℂ :=
    fun s k t b => Rb s k t b * invR s t b
  let yhat : Fin S → Fin K → Fin T → Fin B → ℂ :=
    fun s k t b => RR s k t b * Y s b t
  let Rhat : Fin S → Fin K → Fin T → Fin B → ℂ :=
    fun s k t b => toPSD1 (Rb s k t b * (1 - star (RR s k t b)))
  let Phi : Fin S → Fin K → Fin T → Fin B → ℂ :=
    fun s k t b => toPSD1 (yhat s k t b * star (yhat s k t b) + Rhat s k t b)
  let Vf : Fin S → Fin K → Fin T → ℝ :=
    fun s k t => if V s k t < eps then eps else V s k t
  let Unew : Fin S → Fin B → Fin K → ℂ :=
    fun s b k =>
      toPSD1 ((∑ t, Phi s k t b / ((Vf s k t : ℝ) : ℂ)) / ((T : ℕ) : ℂ))
  (Unew, Vf)

/-- C10: update_basis_em also mutates the activation tensor: the stored
activation equals the previous activation with every entry below eps
replaced by eps (the floor applied to the shared array before the division
by the activation), and every entry already at least eps is unchanged. -/
theorem c10_basis_em_floors_activation {S K T B : ℕ} (eps : ℝ)
    (X : Fin S → Fin B → Fin T → ℂ) (W : Fin B → Fin S → Fin S → ℂ)
    (U : Fin S → Fin B → Fin K → ℂ) (V : Fin S → Fin K → Fin T → ℝ) :
    (updateBasisEm1 eps X W U V).2 =
      (fun s k t => if V s k t < eps then eps else V s k t) ∧
    ∀ s k t, eps ≤ V s k t → (updateBasisEm1 eps X W U V).2 s k t = V s k t := by
  refine ⟨rfl, ?_⟩
  intro s k t h
  show (if V s k t < eps then eps else V s k t) = V s k t
  exact if_neg (not_lt.mpr h)

/-- Concrete input family for the C10 witness. -/
noncomputable def c10X : Fin 1 → Fin 1 → Fin 1 → ℂ := fun _ _ _ => 1

/-- Concrete demixing matrix for the C10 witness. -/
noncomputable def c10W : Fin 1 → Fin 1 → Fin 1 → ℂ := fun _ _ _ => 1

/-- Concrete basis for the C10 witness. -/
noncomputable def c10U : Fin 1 → Fin 1 → Fin 1 → ℂ := fun _ _ _ => 1

/-- Concrete activation for the C10 witness. -/
noncomputable def c10V : Fin 1 → Fin 1 → Fin 1 → ℝ := fun _ _ _ => 1

/-- Witness for C10: with eps = 0 and an activation entry equal to 1 the
stored activation entry is unchanged. -/
theorem c10_witness :
    (0 : ℝ) ≤ c10V 0 0 0 ∧
    (updateBasisEm1 0 c10X c10W c10U c10V).2 0 0 0 = c10V 0 0 0 :=
  ⟨by simp [c10V],
    (c10_basis_em_floors_activation 0 c10X c10W c10U c10V).2 0 0 0
      (by simp [c10V])⟩

end Ipsdta
